import Mathlib

/-!
Verification of the data-loading and aggregation core of the
`nadosooyong-dashboard` repository (`src/main.py`), a Streamlit dashboard
that loads per-school environment CSVs and a growth workbook and renders
aggregate statistics.

Strings are embedded as lists of Unicode code points (`U := List Nat`);
file contents are embedded per claim (raw bytes for the decoding claims,
parsed rows for the aggregation claims, which all presuppose well-formed
UTF-8 inputs). Rationals stand for the Python floats involved: every value
the program computes on them (means, comparisons) is exact decimal
arithmetic at the scales of this experiment.
-/

set_option autoImplicit false

namespace NadoDash

/-- Unicode text as a list of code points. -/
abbrev U := List Nat

/-- Lexicographic comparison of code-point lists: the order Python's `<` and
`sorted` use on `str`, and the order `pandas.groupby` sorts group keys in. -/
def uLt : U → U → Bool
  | [], [] => false
  | [], _ :: _ => true
  | _ :: _, [] => false
  | a :: as, b :: bs => a < b || (a == b && uLt as bs)

/-- Contiguous-substring test: Python's `in` operator on strings. -/
def infixB (p : U) : U → Bool
  | [] => p.isEmpty
  | c :: rest => List.isPrefixOf p (c :: rest) || infixB p rest

/-- Python-dict insertion: replace the value in place when the key is
present (keeping its position), otherwise append at the end. -/
def dinsert {α : Type} : List (U × α) → U → α → List (U × α)
  | [], k, v => [(k, v)]
  | (k1, v1) :: rest, k, v =>
    if k1 == k then (k, v) :: rest else (k1, v1) :: dinsert rest k v

/-- Python-dict lookup. -/
def dlookup {α : Type} (d : List (U × α)) (k : U) : Option α :=
  (d.find? (fun p => p.1 == k)).map Prod.snd

/-- Keys of an embedded dict, in insertion order. -/
def dkeys {α : Type} (d : List (U × α)) : List U := d.map Prod.fst

/-- Distinct elements of a list, keeping first occurrences; `seen` holds
the elements already emitted. -/
def dedupFirstAux (seen : List U) : List U → List U
  | [] => []
  | x :: rest =>
    if seen.contains x then dedupFirstAux seen rest
    else x :: dedupFirstAux (seen ++ [x]) rest

/-- Distinct elements of a list, keeping first occurrences. -/
def dedupFirst (l : List U) : List U := dedupFirstAux [] l

/-- Insertion into a `uLt`-sorted list. -/
def insertSorted (x : U) : List U → List U
  | [] => [x]
  | y :: ys => if uLt x y then x :: y :: ys else y :: insertSorted x ys

/-- Sort a list of strings ascending by `uLt` (Python's `sorted`, the key
order of `pandas.groupby`). -/
def sortU (l : List U) : List U := l.foldr insertSorted []

/-- Arithmetic mean of a list of rationals (`pandas` `.mean()` on a
nonempty numeric column). -/
def mean (l : List ℚ) : ℚ := l.sum / l.length

/-- First entry of an association list achieving the maximal value:
`Series.idxmax`, which documents that it returns the first occurrence of
the maximum. -/
def firstMax : List (U × ℚ) → Option (U × ℚ)
  | [] => none
  | (k, v) :: rest =>
    some ((firstMax rest).elim (k, v) (fun q2 => if v < q2.2 then q2 else (k, v)))

/-! ### Hangul canonical composition

`unicodedata.normalize('NFC', s)` restricted to the Hangul fragment: the
algorithmic composition of conjoining jamo (L+V and LV+T) into precomposed
syllables, which is the entire effect of NFC on the Korean names this
program normalizes. -/

/-- Leading-consonant jamo (choseong) range U+1100..U+1112. -/
def choseong (a : Nat) : Bool := 0x1100 ≤ a && a ≤ 0x1112

/-- Vowel jamo (jungseong) range U+1161..U+1175. -/
def jungseong (b : Nat) : Bool := 0x1161 ≤ b && b ≤ 0x1175

/-- Trailing-consonant jamo (jongseong) range U+11A8..U+11C2. -/
def jongseong (c : Nat) : Bool := 0x11A8 ≤ c && c ≤ 0x11C2

/-- Precomposed LV syllable (no trailing consonant yet). -/
def isLV (s : Nat) : Bool := 0xAC00 ≤ s && s ≤ 0xD7A3 && (s - 0xAC00) % 28 == 0

/-- Canonical composition walk: `acc` is the preceding character, still
subject to composition with the next one. -/
def nfcAux (acc : Nat) : List Nat → List Nat
  | [] => [acc]
  | b :: rest =>
    if choseong acc && jungseong b then
      nfcAux (0xAC00 + (acc - 0x1100) * 588 + (b - 0x1161) * 28) rest
    else if isLV acc && jongseong b then
      nfcAux (acc + (b - 0x11A7)) rest
    else
      acc :: nfcAux b rest

/-- Canonical composition (NFC) on the Hangul fragment. -/
def nfc : U → U
  | [] => []
  | a :: rest => nfcAux a rest

/-! ### Byte decoding

`pd.read_csv(found_file)` at `src/main.py:53` is called with pandas'
default text encoding, UTF-8, and in strict error mode: the embedding
below reproduces Python's UTF-8 decoder (rejecting stray continuation
bytes, overlong forms, surrogates and out-of-range code points). -/

/-- Continuation byte 0x80..0xBF. -/
def contByte (b : Nat) : Bool := 0x80 ≤ b && b < 0xC0

/-- Strict UTF-8 decoding of a byte list into code points; `none` models
Python's `UnicodeDecodeError`. -/
def utf8Decode : List Nat → Option (List Nat)
  | [] => some []
  | b :: rest =>
    if b < 0x80 then (utf8Decode rest).map (fun cs => b :: cs)
    else if b < 0xC2 then none
    else if b < 0xE0 then
      match rest with
      | b1 :: r =>
        if contByte b1 then
          (utf8Decode r).map (fun cs => ((b - 0xC0) * 64 + (b1 - 0x80)) :: cs)
        else none
      | [] => none
    else if b < 0xF0 then
      match rest with
      | b1 :: b2 :: r =>
        if contByte b1 && contByte b2 then
          let c := (b - 0xE0) * 4096 + (b1 - 0x80) * 64 + (b2 - 0x80)
          if c < 0x800 || (0xD800 ≤ c && c < 0xE000) then none
          else (utf8Decode r).map (fun cs => c :: cs)
        else none
      | _ => none
    else if b < 0xF5 then
      match rest with
      | b1 :: b2 :: b3 :: r =>
        if contByte b1 && contByte b2 && contByte b3 then
          let c := (b - 0xF0) * 262144 + (b1 - 0x80) * 4096 + (b2 - 0x80) * 64 + (b3 - 0x80)
          if c < 0x10000 || 0x10FFFF < c then none
          else (utf8Decode r).map (fun cs => c :: cs)
        else none
      | _ => none
    else none

/-- Error surface of the embedded loader. -/
inductive PyErr where
  /-- `UnicodeDecodeError` from decoding a CSV's bytes. -/
  | decodeErr
  /-- Reading a path that is not a regular file of the expected format. -/
  | readErr
  /-- `iterdir` on an entry that is not a directory. -/
  | notADirectory
deriving DecidableEq, Repr

/-- Text-decoding behavior of `pd.read_csv(found_file)` at
`src/main.py:53`: a single strict UTF-8 attempt (pandas' default
encoding), whose failure propagates as an uncaught error — there is no
second attempt with any other encoding in the source. -/
def readCsvDecode (bytes : List Nat) : Except PyErr U :=
  match utf8Decode bytes with
  | some cs => Except.ok cs
  | none => Except.error PyErr.decodeErr

/-- Modelled from the spec: a byte string lies in the legacy 8-bit Korean
encoding (the EUC-KR core of CP949 named by the spec) when it is a
sequence of ASCII bytes and two-byte codes with lead and trail bytes in
0xA1..0xFE. -/
def validEucKr : List Nat → Bool
  | [] => true
  | b :: rest =>
    if b < 0x80 then validEucKr rest
    else
      match rest with
      | b1 :: r =>
        (0xA1 ≤ b && b ≤ 0xFE) && (0xA1 ≤ b1 && b1 ≤ 0xFE) && validEucKr r
      | [] => false

/-! ### School configuration (`SCHOOL_INFO`, `src/main.py:23-28`)

School names and filenames as code-point lists. -/

/-- Code points of 송도고. -/
def songdo : U := [0xC1A1, 0xB3C4, 0xACE0]

/-- Code points of 하늘고. -/
def haneul : U := [0xD558, 0xB298, 0xACE0]

/-- Code points of 아라고. -/
def ara : U := [0xC544, 0xB77C, 0xACE0]

/-- Code points of 동산고. -/
def dongsan : U := [0xB3D9, 0xC0B0, 0xACE0]

/-- `SCHOOL_INFO` from `src/main.py:23-28`: each school's name and
`ec_target`, in the source's (Python-dict insertion) order. The display
colors play no role in any claim and are omitted. -/
def SCHOOL_INFO : List (U × ℚ) :=
  [(songdo, 1), (haneul, 2), (ara, 4), (dongsan, 8)]

/-- School names in configured order (`SCHOOL_INFO.keys()`). -/
def schoolNames : List U := SCHOOL_INFO.map Prod.fst

/-- The configured `ec_target` of a school. -/
def ecTargetOf (s : U) : ℚ :=
  ((SCHOOL_INFO.find? (fun p => p.1 == s)).map Prod.snd).getD 0

/-- Code points of the suffix `_환경데이터.csv`. -/
def envSuffix : U :=
  [0x5F, 0xD658, 0xACBD, 0xB370, 0xC774, 0xD130, 0x2E, 0x63, 0x73, 0x76]

/-- Logical environment-CSV filename of a school: `f"{school}_환경데이터.csv"`
(`src/main.py:49`). -/
def envTarget (s : U) : U := s ++ envSuffix

/-- Code points of the workbook filename `4개교_생육결과데이터.xlsx`
(`src/main.py:60`). -/
def growthFilename : U :=
  [0x34, 0xAC1C, 0xAD50, 0x5F, 0xC0DD, 0xC721, 0xACB0, 0xACFC, 0xB370,
   0xC774, 0xD130, 0x2E, 0x78, 0x6C, 0x73, 0x78]

/-- Code points of the directory name `data`. -/
def dataName : U := [0x64, 0x61, 0x74, 0x61]

/-! ### Data model

Rows keep exactly the columns the claims constrain; file contents of CSVs
in the aggregation model are the parsed rows (all aggregation claims
presuppose well-formed UTF-8 CSVs; the byte-level decode step is embedded
separately above as `readCsvDecode`). -/

/-- One parsed environment-CSV row: columns `time, temperature, humidity,
ph, ec`. The timestamp is an opaque tick. -/
structure EnvRow where
  time : Nat
  temperature : ℚ
  humidity : ℚ
  ph : ℚ
  ec : ℚ
deriving DecidableEq, Repr

/-- An environment row after `df['school'] = school` (`src/main.py:54`). -/
structure EnvTagged where
  er : EnvRow
  school : U
deriving DecidableEq, Repr

/-- One growth row after tagging (`src/main.py:71-72`): the `생중량(g)`
(fresh weight) column — the only growth column any claim constrains —
plus the two appended columns `school` and `ec_target`. -/
structure GrowthRow where
  freshWeight : ℚ
  school : U
  ecTarget : ℚ
deriving DecidableEq, Repr

/-- One workbook sheet: its name and its parsed rows, projected to the
fresh-weight column. -/
structure Sheet where
  sname : U
  rows : List ℚ
deriving DecidableEq, Repr

/-- A filesystem entry: a CSV file (parsed-row content), an xlsx workbook
(sheet content), or a directory. -/
inductive FSNode where
  | csvFile (name : U) (rows : List EnvRow)
  | xlsxFile (name : U) (sheets : List Sheet)
  | dirNode (name : U) (children : List FSNode)

/-- Name of a filesystem entry (`Path.name`). -/
def fname : FSNode → U
  | .csvFile n _ => n
  | .xlsxFile n _ => n
  | .dirNode n _ => n

/-! ### The loader (`load_all_data`, `src/main.py:31-77`) -/

/-- `normalize_compare` (`src/main.py:42-43`): NFC-normalize both names,
then compare for equality. -/
def normalize_compare (target_name file_name : U) : Bool :=
  nfc file_name == nfc target_name

/-- `next((f for f in all_files if normalize_compare(target, f.name)), None)`
(`src/main.py:50` and `src/main.py:61`). -/
def findFile (files : List FSNode) (target : U) : Option FSNode :=
  files.find? (fun f => normalize_compare target (fname f))

/-- The environment-loading loop (`src/main.py:48-57`) over a list of
schools: for each school in order, resolve its CSV; a resolved CSV is
parsed and row-tagged into `env_dfs`, an unresolved school appends a
warning, and a resolved entry that is not a CSV file raises. -/
def loadEnvList (files : List FSNode) :
    List (U × ℚ) → Except PyErr (List (U × List EnvTagged) × List U)
  | [] => Except.ok ([], [])
  | si :: rest =>
    match findFile files (envTarget si.1) with
    | some (.csvFile _ rows) =>
      (loadEnvList files rest).map
        (fun p => ((si.1, rows.map (fun r => ⟨r, si.1⟩)) :: p.1, p.2))
    | some _ => Except.error PyErr.readErr
    | none =>
      (loadEnvList files rest).map (fun p => (p.1, si.1 :: p.2))

/-- Environment loading over all configured schools. -/
def loadEnv (files : List FSNode) :
    Except PyErr (List (U × List EnvTagged) × List U) :=
  loadEnvList files SCHOOL_INFO

/-- Sheet-to-school matching (`src/main.py:68`): the first school in
`SCHOOL_INFO` order whose name is a substring of the NFC-normalized sheet
name. -/
def matchSchool (sheetName : U) : Option (U × ℚ) :=
  SCHOOL_INFO.find? (fun si => infixB si.1 (nfc sheetName))

/-- Row tagging of a matched sheet (`src/main.py:70-72`): every parsed row
gains the matched school and its `ec_target`. -/
def tagRows (sh : Sheet) (s : U) (ec : ℚ) : List GrowthRow :=
  sh.rows.map (fun w => ⟨w, s, ec⟩)

/-- Processing of one workbook sheet (`src/main.py:66-73`): a matched
sheet's tagged table is stored under the school key (replacing any earlier
table for that school, Python-dict style); an unmatched sheet is skipped. -/
def procSheet (d : List (U × List GrowthRow)) (sh : Sheet) :
    List (U × List GrowthRow) :=
  match matchSchool sh.sname with
  | some (s, ec) => dinsert d s (tagRows sh s ec)
  | none => d

/-- Processing of all workbook sheets in order into `growth_df_dict`. -/
def procSheets (sheets : List Sheet) : List (U × List GrowthRow) :=
  sheets.foldl procSheet []

/-- Workbook loading (`src/main.py:59-75`): resolve the workbook filename;
when found, fold its sheets; when absent, record the error flag
(`st.error`) and leave the dict empty; a resolved non-xlsx entry raises. -/
def loadGrowth (files : List FSNode) :
    Except PyErr (List (U × List GrowthRow) × Bool) :=
  match findFile files growthFilename with
  | some (.xlsxFile _ sheets) => Except.ok (procSheets sheets, false)
  | some _ => Except.error PyErr.readErr
  | none => Except.ok ([], true)

/-- The pair `load_all_data` returns, plus the user-visible messages it
emits: `env_dfs`, `growth_df_dict`, the per-school warnings of
`src/main.py:57`, and whether the workbook error of `src/main.py:75` was
shown. -/
structure LoadResult where
  envDfs : List (U × List EnvTagged)
  growthDfs : List (U × List GrowthRow)
  warnings : List U
  growthError : Bool
deriving DecidableEq, Repr

/-- Outcome of one call of `load_all_data`: the early `(None, None)` return
when `data/` is absent (`src/main.py:34-36`), an uncaught Python
exception, or the returned pair. -/
inductive LoadOutcome where
  | noDataDir
  | raised (e : PyErr)
  | ok (r : LoadResult)
deriving DecidableEq, Repr

/-- `load_all_data` (`src/main.py:31-77`) over the entries of the current
working directory: `Path("data")` must exist as a direct child (no other
location is ever consulted); its entries are listed once and the
environment CSVs and the workbook are resolved against them. -/
def load_all_data (cwd : List FSNode) : LoadOutcome :=
  match cwd.find? (fun nd => fname nd == dataName) with
  | none => LoadOutcome.noDataDir
  | some (.dirNode _ children) =>
    match loadEnv children, loadGrowth children with
    | Except.error e, _ => LoadOutcome.raised e
    | Except.ok _, Except.error e => LoadOutcome.raised e
    | Except.ok (dfs, warns), Except.ok (gd, gerr) =>
      LoadOutcome.ok ⟨dfs, gd, warns, gerr⟩
  | some _ => LoadOutcome.raised PyErr.notADirectory

/-! ### The main gate and the aggregations (`src/main.py:83-191`) -/

/-- The gate `if env_data and growth_data:` at `src/main.py:83`: every tab
— overview, environment and growth alike — renders only when the load
returned and both dicts are nonempty (Python truthiness). -/
def dashboardShown : LoadOutcome → Bool
  | .ok r => !r.envDfs.isEmpty && !r.growthDfs.isEmpty
  | _ => false

/-- One row of the environment aggregate table (`src/main.py:125-135`). -/
structure SummaryRow where
  school : U
  avgTemp : ℚ
  avgHum : ℚ
  avgPh : ℚ
  avgEc : ℚ
  targetEc : ℚ
deriving DecidableEq, Repr

/-- `env_summary` (`src/main.py:125-135`): one row per school of
`env_data`, in dict order, with the per-column means and the configured
target. -/
def env_summary (envDfs : List (U × List EnvTagged)) : List SummaryRow :=
  envDfs.map (fun p =>
    ⟨p.1,
     mean (p.2.map (fun t => t.er.temperature)),
     mean (p.2.map (fun t => t.er.humidity)),
     mean (p.2.map (fun t => t.er.ph)),
     mean (p.2.map (fun t => t.er.ec)),
     ecTargetOf p.1⟩)

/-- `all_growth = pd.concat(growth_data.values())` (`src/main.py:173`). -/
def all_growth (d : List (U × List GrowthRow)) : List GrowthRow :=
  (d.map Prod.snd).flatten

/-- Mean fresh weight of one school's rows within a combined table. -/
def meanOf (rows : List GrowthRow) (s : U) : ℚ :=
  mean ((rows.filter (fun r => r.school == s)).map (fun r => r.freshWeight))

/-- `avg_weight = all_growth.groupby('school')['생중량(g)'].mean()`
(`src/main.py:176`): `groupby` sorts the distinct school keys (its default
`sort=True`), then each group is averaged. -/
def avg_weight (rows : List GrowthRow) : List (U × ℚ) :=
  (sortU (dedupFirst (rows.map (fun r => r.school)))).map
    (fun s => (s, meanOf rows s))

/-- `best_school = avg_weight.loc[avg_weight['생중량(g)'].idxmax(), 'school']`
(`src/main.py:177`): the first school of the sorted per-school means
achieving the maximum. -/
def best_school (d : List (U × List GrowthRow)) : Option U :=
  (firstMax (avg_weight (all_growth d))).map Prod.fst

/-- The `@st.cache_data` single-slot cache on `load_all_data`
(`src/main.py:31`): a call returns the cached outcome when one exists and
otherwise computes, stores and returns it. -/
def cachedLoad (cache : Option LoadOutcome) (cwd : List FSNode) :
    LoadOutcome × Option LoadOutcome :=
  match cache with
  | some r => (r, some r)
  | none => (load_all_data cwd, some (load_all_data cwd))

/-! ### Spec-side definitions

Definitions written from the spec's words, for the refinement claims that
compare the spec's described behavior with the source's. Each is clearly
marked; none is used by the code embedding above. -/

/-- Modelled from the spec: depth-first recursive search of all
subdirectories for the first directory named `data`. -/
def findDataRec : List FSNode → Option FSNode
  | [] => none
  | nd :: rest =>
    match nd with
    | .dirNode n children =>
      if n == dataName then some (.dirNode n children)
      else
        match findDataRec children with
        | some d => some d
        | none => findDataRec rest
    | _ => findDataRec rest

/-- Modelled from the spec: locating the data directory prefers a direct
child named `data`; when that is absent, the first directory named `data`
found by a recursive search of all subdirectories is taken. -/
def locateDataClaimed (cwd : List FSNode) : Option FSNode :=
  match cwd.find? (fun nd => fname nd == dataName) with
  | some d => some d
  | none => findDataRec cwd

/-- Modelled from the spec: the best school as the claim states it — the
argmax over the per-school means of the schools present in the combined
table, with ties resolved in favor of the school occurring first in the
configured `SCHOOL_INFO` ordering. -/
def best_school_claimed (d : List (U × List GrowthRow)) : Option U :=
  (firstMax
    ((schoolNames.filter
        (fun s => (all_growth d).any (fun r => r.school == s))).map
      (fun s => (s, meanOf (all_growth d) s)))).map Prod.fst

/-- Strict `uLt`-sortedness. -/
def SortedU (l : List U) : Prop := l.Pairwise (fun a b => uLt a b = true)

/-- Total row count of a growth dict. -/
def totalLen (d : List (U × List GrowthRow)) : Nat :=
  (d.map (fun p => p.2.length)).sum

/-- Schools matched by the sheets, one entry per matched sheet, in sheet
order. -/
def matchedSchools (sheets : List Sheet) : List U :=
  (sheets.filterMap (fun sh => matchSchool sh.sname)).map Prod.fst

/-- Sum of the row counts over all matched sheets. -/
def matchedRowSum (sheets : List Sheet) : Nat :=
  ((sheets.filter (fun sh => (matchSchool sh.sname).isSome)).map
    (fun sh => sh.rows.length)).sum

/-! ### Concrete instances and claim statements

Concrete inputs used by witnesses and counterexamples, and the claims that
turn out false on the code, stated as propositions so their negations can
be proved at explicit inputs. -/

/-- Code points of 송도고_환경데이터.csv written with decomposed (NFD) Hangul
jamo: byte-wise different from `envTarget songdo` but canonically
equivalent to it. -/
def songdoEnvDecomp : U :=
  [0x1109, 0x1169, 0x11BC, 0x1103, 0x1169, 0x1100, 0x1169, 0x5F,
   0x1112, 0x116A, 0x11AB, 0x1100, 0x1167, 0x11BC, 0x1103, 0x1166,
   0x110B, 0x1175, 0x1110, 0x1165, 0x2E, 0x63, 0x73, 0x76]

/-- Claim C1 as stated: a CSV whose bytes lie in the legacy Korean
encoding loads successfully (the UTF-8 attempt fails, CP949/EUC-KR is
retried). -/
def claimC1 : Prop :=
  ∀ bytes : List Nat, validEucKr bytes = true →
    ∃ cs, readCsvDecode bytes = Except.ok cs

/-- The EUC-KR encoding of the single syllable 가: not valid UTF-8. -/
def eucKrGa : List Nat := [0xB0, 0xA1]

/-- Claim C2 as stated, in its testable consequence: whenever a directory
named `data` exists anywhere (direct child or found by the recursive
search), the load does not fail with the directory-not-found error. -/
def claimC2 : Prop :=
  ∀ cwd : List FSNode, (locateDataClaimed cwd).isSome = true →
    load_all_data cwd ≠ LoadOutcome.noDataDir

/-- A working directory whose only `data` directory sits one level down
(inside `sub`), not as a direct child. -/
def cexRoot2 : List FSNode :=
  [FSNode.dirNode [0x73, 0x75, 0x62] [FSNode.dirNode dataName []]]

/-- A sample environment row. -/
def er0 : EnvRow := ⟨0, 20, 50, 6, 2⟩

/-- Data-directory contents with all four school CSVs present and the
workbook absent. -/
def cexFiles3 : List FSNode :=
  [FSNode.csvFile (envTarget songdo) [er0],
   FSNode.csvFile (envTarget haneul) [er0],
   FSNode.csvFile (envTarget ara) [er0],
   FSNode.csvFile (envTarget dongsan) [er0]]

/-- Claim C3 as stated, in its testable consequence: when the workbook is
missing but environment CSVs are present and loaded, the environment
aggregates still render. -/
def claimC3 : Prop :=
  ∀ files : List FSNode,
    (∀ f ∈ files, normalize_compare growthFilename (fname f) = false) →
    (∃ r, load_all_data [FSNode.dirNode dataName files] = LoadOutcome.ok r ∧
      r.envDfs.isEmpty = false) →
    dashboardShown (load_all_data [FSNode.dirNode dataName files]) = true

/-- The load result on `cexFiles3`: all four environment tables built, the
growth dict empty, the workbook error shown. -/
def resC3 : LoadResult :=
  ⟨[(songdo, [⟨er0, songdo⟩]), (haneul, [⟨er0, haneul⟩]),
    (ara, [⟨er0, ara⟩]), (dongsan, [⟨er0, dongsan⟩])],
   [], [], true⟩

/-- A growth dict in which 송도고 (first in the configured order) and
동산고 (first in sorted order) tie on mean fresh weight. -/
def d0 : List (U × List GrowthRow) :=
  [(songdo, [⟨10, songdo, 1⟩]), (dongsan, [⟨10, dongsan, 8⟩])]

/-- Claim C4 as stated: the code's best-school selection agrees with the
argmax that breaks ties by the configured school ordering. -/
def claimC4 : Prop := ∀ d, best_school d = best_school_claimed d

/-- Workbook sheets in which two distinct sheets both match 송도고. -/
def cexSheets8 : List Sheet :=
  [⟨songdo ++ [0x41], [1, 2]⟩, ⟨songdo ++ [0x42], [1, 2, 3]⟩]

/-- Claim C8 as stated: the combined growth table's row count equals the
sum of the row counts over all matched sheets. -/
def claimC8 : Prop :=
  ∀ sheets : List Sheet,
    (all_growth (procSheets sheets)).length = matchedRowSum sheets

/-- A full, well-formed data directory: all four CSVs and the workbook
with one sheet per school. -/
def goodSheets : List Sheet :=
  [⟨songdo, [10]⟩, ⟨haneul, [12]⟩, ⟨ara, [9]⟩, ⟨dongsan, [8]⟩]

/-- Data-directory contents with 동산고's CSV missing and everything else
present. -/
def filesNoDongsan : List FSNode :=
  [FSNode.csvFile (envTarget songdo) [er0],
   FSNode.csvFile (envTarget haneul) [er0],
   FSNode.csvFile (envTarget ara) [er0],
   FSNode.xlsxFile growthFilename goodSheets]

/-! ### Order properties of `uLt` -/

theorem uLt_irrefl (a : U) : uLt a a = false := by
  induction a with
  | nil => rfl
  | cons x xs ih => simp [uLt, ih]

theorem uLt_cons_iff {x y : Nat} {xs ys : U} :
    uLt (x :: xs) (y :: ys) = true ↔ x < y ∨ (x = y ∧ uLt xs ys = true) := by
  simp [uLt]

theorem uLt_trans : ∀ {a b c : U}, uLt a b = true → uLt b c = true →
    uLt a c = true
  | [], [], _, h1, _ => by simp [uLt] at h1
  | [], _ :: _, [], _, h2 => by simp [uLt] at h2
  | [], _ :: _, _ :: _, _, _ => by simp [uLt]
  | _ :: _, [], _, h1, _ => by simp [uLt] at h1
  | _ :: _, _ :: _, [], _, h2 => by simp [uLt] at h2
  | x :: xs, y :: ys, z :: zs, h1, h2 => by
    rw [uLt_cons_iff] at h1 h2 ⊢
    rcases h1 with h1 | ⟨rfl, h1⟩
    · rcases h2 with h2 | ⟨rfl, h2⟩
      · exact Or.inl (Nat.lt_trans h1 h2)
      · exact Or.inl h1
    · rcases h2 with h2 | ⟨rfl, h2⟩
      · exact Or.inl h2
      · exact Or.inr ⟨rfl, uLt_trans h1 h2⟩

theorem uLt_total : ∀ (a b : U), a = b ∨ uLt a b = true ∨ uLt b a = true
  | [], [] => Or.inl rfl
  | [], _ :: _ => Or.inr (Or.inl (by simp [uLt]))
  | _ :: _, [] => Or.inr (Or.inr (by simp [uLt]))
  | x :: xs, y :: ys => by
    rcases Nat.lt_trichotomy x y with h | h | h
    · exact Or.inr (Or.inl (uLt_cons_iff.2 (Or.inl h)))
    · subst h
      rcases uLt_total xs ys with h | h | h
      · exact Or.inl (by rw [h])
      · exact Or.inr (Or.inl (uLt_cons_iff.2 (Or.inr ⟨rfl, h⟩)))
      · exact Or.inr (Or.inr (uLt_cons_iff.2 (Or.inr ⟨rfl, h⟩)))
    · exact Or.inr (Or.inr (uLt_cons_iff.2 (Or.inl h)))

theorem uLt_asymm {a b : U} (h : uLt a b = true) : uLt b a = false := by
  by_contra hc
  have hba : uLt b a = true := by
    cases hab : uLt b a
    · exact absurd hab hc
    · rfl
  have := uLt_trans h hba
  rw [uLt_irrefl] at this
  exact Bool.false_ne_true this

theorem uLt_ne {a b : U} (h : uLt a b = true) : a ≠ b := by
  rintro rfl
  rw [uLt_irrefl] at h
  exact Bool.false_ne_true h

/-! ### Deduplication and sorting -/

theorem mem_dedupFirstAux {a : U} :
    ∀ {l seen : List U}, a ∈ dedupFirstAux seen l ↔ a ∈ l ∧ a ∉ seen
  | [], seen => by simp [dedupFirstAux]
  | x :: rest, seen => by
    by_cases hx : x ∈ seen
    · rw [dedupFirstAux, if_pos (by simpa using hx)]
      rw [mem_dedupFirstAux]
      constructor
      · rintro ⟨h1, h2⟩; exact ⟨List.mem_cons_of_mem _ h1, h2⟩
      · rintro ⟨h1, h2⟩
        rcases List.mem_cons.1 h1 with rfl | h1
        · exact absurd hx h2
        · exact ⟨h1, h2⟩
    · rw [dedupFirstAux, if_neg (by simpa using hx)]
      simp only [List.mem_cons, mem_dedupFirstAux, List.mem_append,
        List.mem_singleton]
      by_cases hax : a = x
      · subst hax
        tauto
      · tauto

theorem nodup_dedupFirstAux : ∀ (l seen : List U), (dedupFirstAux seen l).Nodup
  | [], _ => List.nodup_nil
  | x :: rest, seen => by
    rw [dedupFirstAux]
    split
    · exact nodup_dedupFirstAux rest seen
    · refine List.nodup_cons.2 ⟨fun hmem => ?_, nodup_dedupFirstAux rest _⟩
      have := (mem_dedupFirstAux.1 hmem).2
      simp at this

theorem mem_dedupFirst {a : U} {l : List U} : a ∈ dedupFirst l ↔ a ∈ l := by
  simp [dedupFirst, mem_dedupFirstAux]

theorem nodup_dedupFirst (l : List U) : (dedupFirst l).Nodup :=
  nodup_dedupFirstAux l []

theorem mem_insertSorted {x a : U} :
    ∀ {l : List U}, a ∈ insertSorted x l ↔ a = x ∨ a ∈ l
  | [] => by simp [insertSorted]
  | y :: ys => by
    rw [insertSorted]
    split
    · simp [List.mem_cons]
    · simp only [List.mem_cons, mem_insertSorted]
      tauto

theorem sortedU_insertSorted {x : U} :
    ∀ {l : List U}, SortedU l → x ∉ l → SortedU (insertSorted x l)
  | [], _, _ => List.pairwise_singleton _ _
  | y :: ys, hs, hx => by
    rcases List.pairwise_cons.1 hs with ⟨hy, hys⟩
    rw [insertSorted]
    split
    · rename_i hxy
      refine List.pairwise_cons.2 ⟨?_, hs⟩
      intro z hz
      rcases List.mem_cons.1 hz with rfl | hz
      · exact hxy
      · exact uLt_trans hxy (hy z hz)
    · rename_i hxy
      have hyx : uLt y x = true := by
        rcases uLt_total x y with rfl | h | h
        · exact absurd (List.mem_cons_self x ys) hx
        · exact absurd h hxy
        · exact h
      refine List.pairwise_cons.2 ⟨?_, ?_⟩
      · intro z hz
        rcases mem_insertSorted.1 hz with rfl | hz
        · exact hyx
        · exact hy z hz
      · exact sortedU_insertSorted hys (fun h => hx (List.mem_cons_of_mem _ h))

theorem mem_sortU {a : U} : ∀ {l : List U}, a ∈ sortU l ↔ a ∈ l
  | [] => by simp [sortU]
  | x :: xs => by
    have : sortU (x :: xs) = insertSorted x (sortU xs) := rfl
    rw [this, mem_insertSorted, mem_sortU]
    simp [List.mem_cons]

theorem sortedU_sortU : ∀ {l : List U}, l.Nodup → SortedU (sortU l)
  | [], _ => List.Pairwise.nil
  | x :: xs, h => by
    rcases List.nodup_cons.1 h with ⟨hx, hxs⟩
    have : sortU (x :: xs) = insertSorted x (sortU xs) := rfl
    rw [this]
    exact sortedU_insertSorted (sortedU_sortU hxs) (fun hm => hx (mem_sortU.1 hm))

/-! ### Properties of `firstMax` -/

theorem firstMax_eq_none_iff : ∀ {l : List (U × ℚ)},
    firstMax l = none ↔ l = []
  | [] => by simp [firstMax]
  | (k, v) :: rest => by simp [firstMax]

theorem firstMax_mem : ∀ {l : List (U × ℚ)} {p : U × ℚ},
    firstMax l = some p → p ∈ l
  | [], p, h => by simp [firstMax] at h
  | (k, v) :: rest, p, h => by
    rcases hr : firstMax rest with _ | q2
    · rw [firstMax, hr] at h
      simp only [Option.elim] at h
      injection h with h
      subst h
      exact List.mem_cons_self _ _
    · rw [firstMax, hr] at h
      simp only [Option.elim] at h
      by_cases hv : v < q2.2
      · rw [if_pos hv] at h
        injection h with h
        subst h
        exact List.mem_cons_of_mem _ (firstMax_mem hr)
      · rw [if_neg hv] at h
        injection h with h
        subst h
        exact List.mem_cons_self _ _

theorem firstMax_ge : ∀ {l : List (U × ℚ)} {p : U × ℚ},
    firstMax l = some p → ∀ q ∈ l, q.2 ≤ p.2
  | [], p, h => by simp [firstMax] at h
  | (k, v) :: rest, p, h => by
    rcases hr : firstMax rest with _ | q2
    · rw [firstMax, hr] at h
      simp only [Option.elim] at h
      injection h with h
      subst h
      intro q hq
      rcases List.mem_cons.1 hq with rfl | hq
      · exact le_refl _
      · rw [firstMax_eq_none_iff.1 hr] at hq
        simp at hq
    · rw [firstMax, hr] at h
      simp only [Option.elim] at h
      by_cases hv : v < q2.2
      · rw [if_pos hv] at h
        injection h with h
        subst h
        intro q hq
        rcases List.mem_cons.1 hq with rfl | hq
        · exact le_of_lt hv
        · exact firstMax_ge hr q hq
      · rw [if_neg hv] at h
        injection h with h
        subst h
        intro q hq
        rcases List.mem_cons.1 hq with rfl | hq
        · exact le_refl _
        · exact le_trans (firstMax_ge hr q hq) (le_of_not_lt hv)

/-- Among entries whose keys precede the winner in `uLt` order, the value
is strictly below the winner's, provided the keys are strictly sorted. -/
theorem firstMax_first : ∀ {l : List (U × ℚ)} {p : U × ℚ},
    l.Pairwise (fun a b => uLt a.1 b.1 = true) →
    firstMax l = some p → ∀ q ∈ l, uLt q.1 p.1 = true → q.2 < p.2
  | [], p, _, h => by simp [firstMax] at h
  | (k, v) :: rest, p, hs, h => by
    rcases List.pairwise_cons.1 hs with ⟨hk, hrest⟩
    rcases hr : firstMax rest with _ | q2
    · rw [firstMax, hr] at h
      simp only [Option.elim] at h
      injection h with h
      subst h
      intro q hq hlt
      rcases List.mem_cons.1 hq with rfl | hq
      · rw [uLt_irrefl] at hlt
        exact absurd hlt Bool.false_ne_true
      · rw [firstMax_eq_none_iff.1 hr] at hq
        simp at hq
    · rw [firstMax, hr] at h
      simp only [Option.elim] at h
      by_cases hv : v < q2.2
      · rw [if_pos hv] at h
        injection h with h
        subst h
        intro q hq hlt
        rcases List.mem_cons.1 hq with rfl | hq
        · exact hv
        · exact firstMax_first hrest hr q hq hlt
      · rw [if_neg hv] at h
        injection h with h
        subst h
        intro q hq hlt
        rcases List.mem_cons.1 hq with rfl | hq
        · rw [uLt_irrefl] at hlt
          exact absurd hlt Bool.false_ne_true
        · rw [uLt_asymm (hk q hq)] at hlt
          exact absurd hlt Bool.false_ne_true

/-! ### Dict lemmas -/

theorem dinsert_of_not_mem {α : Type} : ∀ {d : List (U × α)} {k : U} {v : α},
    k ∉ dkeys d → dinsert d k v = d ++ [(k, v)]
  | [], _, _, _ => rfl
  | (k1, v1) :: rest, k, v, h => by
    simp only [dkeys, List.map_cons, List.mem_cons] at h
    push_neg at h
    rw [dinsert, if_neg (by simp only [beq_iff_eq]; exact fun he => h.1 he.symm)]
    rw [dinsert_of_not_mem (by simpa [dkeys] using h.2)]
    simp

theorem dlookup_dinsert_self {α : Type} : ∀ (d : List (U × α)) (k : U) (v : α),
    dlookup (dinsert d k v) k = some v
  | [], k, v => by simp [dinsert, dlookup]
  | (k1, v1) :: rest, k, v => by
    by_cases hk : k1 = k
    · subst hk
      rw [dinsert, if_pos (by simp)]
      simp [dlookup]
    · rw [dinsert, if_neg (by simp [beq_iff_eq, hk])]
      unfold dlookup
      rw [List.find?_cons_of_neg _ (by simp [beq_iff_eq, hk])]
      exact dlookup_dinsert_self rest k v

theorem dkeys_dinsert_mem {α : Type} : ∀ {d : List (U × α)} {k : U} {v : α},
    k ∈ dkeys d → dkeys (dinsert d k v) = dkeys d
  | [], k, v, h => by simp [dkeys] at h
  | (k1, v1) :: rest, k, v, h => by
    by_cases hk : k1 = k
    · subst hk
      rw [dinsert, if_pos (by simp)]
      simp [dkeys]
    · rw [dinsert, if_neg (by simp [beq_iff_eq, hk])]
      simp only [dkeys, List.map_cons] at h ⊢
      rcases List.mem_cons.1 h with rfl | h2
      · exact absurd rfl hk
      · have hrec := @dkeys_dinsert_mem α rest k v h2
        show k1 :: dkeys (dinsert rest k v) = k1 :: dkeys rest
        rw [hrec]

theorem nodup_dkeys_dinsert {α : Type} {d : List (U × α)} {k : U} {v : α}
    (h : (dkeys d).Nodup) : (dkeys (dinsert d k v)).Nodup := by
  by_cases hk : k ∈ dkeys d
  · rw [dkeys_dinsert_mem hk]
    exact h
  · rw [dinsert_of_not_mem hk]
    have hperm : (dkeys d ++ [k]).Perm (k :: dkeys d) :=
      List.perm_append_singleton k (dkeys d)
    have : dkeys (d ++ [(k, v)]) = dkeys d ++ [k] := by simp [dkeys]
    rw [this]
    exact (List.nodup_cons.2 ⟨hk, h⟩).perm hperm.symm

theorem mem_dinsert {α : Type} : ∀ {d : List (U × α)} {k : U} {v : α} {p : U × α},
    p ∈ dinsert d k v → p = (k, v) ∨ p ∈ d
  | [], k, v, p, h => by
    simp only [dinsert, List.mem_singleton] at h
    exact Or.inl h
  | (k1, v1) :: rest, k, v, p, h => by
    rw [dinsert] at h
    split at h
    · rcases List.mem_cons.1 h with rfl | h
      · exact Or.inl rfl
      · exact Or.inr (List.mem_cons_of_mem _ h)
    · rcases List.mem_cons.1 h with rfl | h
      · exact Or.inr (List.mem_cons_self _ _)
      · rcases mem_dinsert h with h | h
        · exact Or.inl h
        · exact Or.inr (List.mem_cons_of_mem _ h)

/-- A successful `find?` splits its list at the first hit: everything to
the left fails the predicate. -/
theorem find?_split {α : Type} (p : α → Bool) :
    ∀ {l : List α} {a : α}, l.find? p = some a →
      p a = true ∧ ∃ l1 l2, l = l1 ++ a :: l2 ∧ ∀ x ∈ l1, p x = false
  | [], a, h => by simp [List.find?] at h
  | b :: rest, a, h => by
    by_cases hb : p b = true
    · rw [List.find?_cons_of_pos _ hb] at h
      injection h with h
      subst h
      exact ⟨hb, [], rest, rfl, fun x hx => absurd hx (List.not_mem_nil x)⟩
    · rw [List.find?_cons_of_neg _ hb] at h
      obtain ⟨hpa, l1, l2, heq, hl1⟩ := find?_split p h
      refine ⟨hpa, b :: l1, l2, by rw [heq]; rfl, ?_⟩
      intro x hx
      rcases List.mem_cons.1 hx with rfl | hx
      · simpa using hb
      · exact hl1 x hx

/-! ### Growth-table bookkeeping -/

theorem length_all_growth (d : List (U × List GrowthRow)) :
    (all_growth d).length = totalLen d := by
  simp only [all_growth, totalLen, List.length_flatten, List.map_map]
  rfl

/-! ### Load-pipeline lemmas -/

/-- Unfolding of `load_all_data` when the working directory has the data
directory as its sole entry. -/
theorem load_all_data_dir (files : List FSNode) :
    load_all_data [FSNode.dirNode dataName files] =
      match loadEnv files, loadGrowth files with
      | Except.error e, _ => LoadOutcome.raised e
      | Except.ok _, Except.error e => LoadOutcome.raised e
      | Except.ok (dfs, warns), Except.ok (gd, gerr) =>
        LoadOutcome.ok ⟨dfs, gd, warns, gerr⟩ := rfl

/-- When every candidate entry is a CSV file, the environment loop never
raises, and every school whose CSV resolves ends up in the dict. -/
theorem loadEnvList_all_csv (files : List FSNode)
    (hcsv : ∀ f ∈ files, ∃ n rows, f = FSNode.csvFile n rows) :
    ∀ sis : List (U × ℚ), ∃ dfs warns,
      loadEnvList files sis = Except.ok (dfs, warns) ∧
      (∀ si ∈ sis, (findFile files (envTarget si.1)).isSome = true →
        si.1 ∈ dkeys dfs)
  | [] => ⟨[], [], rfl, fun si h => absurd h (List.not_mem_nil si)⟩
  | si :: rest => by
    obtain ⟨dfs, warns, heq, hlook⟩ := loadEnvList_all_csv files hcsv rest
    rcases hf : findFile files (envTarget si.1) with _ | f
    · refine ⟨dfs, si.1 :: warns, ?_, ?_⟩
      · simp only [loadEnvList, hf, heq, Except.map]
      · intro sj hj hsome
        rcases List.mem_cons.1 hj with rfl | hj
        · rw [hf] at hsome
          simp at hsome
        · exact hlook sj hj hsome
    · have hfm : f ∈ files := List.mem_of_find?_eq_some hf
      obtain ⟨n, rows, rfl⟩ := hcsv f hfm
      refine ⟨(si.1, rows.map (fun r => ⟨r, si.1⟩)) :: dfs, warns, ?_, ?_⟩
      · simp only [loadEnvList, hf, heq, Except.map]
      · intro sj hj hsome
        rcases List.mem_cons.1 hj with rfl | hj
        · exact List.mem_cons_self _ _
        · exact List.mem_cons_of_mem _ (hlook sj hj hsome)

/-- The configured `ec_target` of a configured school is the one stored
beside it in `SCHOOL_INFO`. -/
theorem ecTargetOf_mem {s : U} {ec : ℚ} (h : (s, ec) ∈ SCHOOL_INFO) :
    ecTargetOf s = ec := by
  simp only [SCHOOL_INFO, List.mem_cons, List.not_mem_nil, or_false,
    Prod.mk.injEq] at h
  rcases h with ⟨rfl, rfl⟩ | ⟨rfl, rfl⟩ | ⟨rfl, rfl⟩ | ⟨rfl, rfl⟩ <;> rfl

/-! ### Claim C1 -/

/-- C1 counterexample: the claimed CP949/EUC-KR fallback does not exist.
The two bytes `0xB0 0xA1` are the valid EUC-KR encoding of 가, yet
`pd.read_csv`'s single UTF-8 decode attempt fails on them and the failure
propagates, so a CSV saved in the legacy encoding does not load. -/
theorem C1_counterexample :
    validEucKr eucKrGa = true ∧
    readCsvDecode eucKrGa = Except.error PyErr.decodeErr ∧
    ¬ claimC1 := by
  refine ⟨by decide, by rfl, fun h => ?_⟩
  obtain ⟨cs, hcs⟩ := h eucKrGa (by decide)
  rw [show readCsvDecode eucKrGa = Except.error PyErr.decodeErr from rfl] at hcs
  exact Except.noConfusion hcs

/-- C1 (amended): loading a school's environment CSV makes exactly one
decode attempt, with UTF-8 (pandas' default); there is no retry with
the Korean legacy encoding. A CSV whose bytes fail UTF-8 decoding makes
the load fail with an (uncaught) decode error, and a CSV whose bytes are
valid UTF-8 loads with the decoded text. -/
theorem C1_single_utf8_attempt (bytes : List Nat) :
    (utf8Decode bytes = none →
      readCsvDecode bytes = Except.error PyErr.decodeErr) ∧
    (∀ cs, utf8Decode bytes = some cs →
      readCsvDecode bytes = Except.ok cs) := by
  constructor
  · intro h
    simp [readCsvDecode, h]
  · intro cs h
    simp [readCsvDecode, h]

/-- C1 witness: the amended behavior at concrete inputs — the EUC-KR bytes
of 가 fail, a plain ASCII byte loads. -/
theorem C1_single_utf8_attempt_witness :
    readCsvDecode eucKrGa = Except.error PyErr.decodeErr ∧
    readCsvDecode [0x61] = Except.ok [0x61] :=
  ⟨(C1_single_utf8_attempt eucKrGa).1 rfl,
   (C1_single_utf8_attempt [0x61]).2 [0x61] rfl⟩

/-! ### Claim C2 -/

/-- C2 counterexample: no recursive search happens. With the only `data`
directory one level down (`sub/data`), the spec's locator finds it but
`load_all_data` fails with the directory-not-found error. -/
theorem C2_counterexample :
    (locateDataClaimed cexRoot2).isSome = true ∧
    load_all_data cexRoot2 = LoadOutcome.noDataDir ∧
    ¬ claimC2 := by
  refine ⟨?_, by rfl, fun h => ?_⟩
  · simp [locateDataClaimed, findDataRec, cexRoot2, fname, dataName]
  · exact h cexRoot2 (by simp [locateDataClaimed, findDataRec, cexRoot2, fname, dataName]) (by rfl)

/-- C2 (amended): only a direct child of the working directory named
`data` is ever consulted. When no such child exists the load fails
immediately with the directory-not-found error (an error message and a
`(None, None)` return, not a `NotFoundError` exception), however many
`data` directories exist deeper; when a direct child directory named
`data` exists, the load proceeds past directory location. -/
theorem C2_direct_child_only (cwd : List FSNode) :
    (cwd.find? (fun nd => fname nd == dataName) = none →
      load_all_data cwd = LoadOutcome.noDataDir) ∧
    (∀ n ch, cwd.find? (fun nd => fname nd == dataName) =
        some (FSNode.dirNode n ch) →
      load_all_data cwd ≠ LoadOutcome.noDataDir) := by
  constructor
  · intro h
    simp [load_all_data, h]
  · intro n ch h
    simp only [load_all_data, h]
    rcases hE : loadEnv ch with e | p
    · simp
    · rcases hG : loadGrowth ch with e | q
      · simp
      · rcases p with ⟨dfs, warns⟩
        rcases q with ⟨gd, gerr⟩
        simp

/-- C2 witness: the amended behavior at concrete inputs — the nested-only
layout fails, a direct `data` child proceeds. -/
theorem C2_direct_child_only_witness :
    load_all_data cexRoot2 = LoadOutcome.noDataDir ∧
    load_all_data [FSNode.dirNode dataName []] ≠ LoadOutcome.noDataDir :=
  ⟨(C2_direct_child_only cexRoot2).1 rfl,
   (C2_direct_child_only [FSNode.dirNode dataName []]).2 dataName [] rfl⟩

/-! ### Claim C5 -/

/-- C5: filename resolution normalizes both sides to NFC before comparing,
so every candidate file whose name is byte-wise different from the logical
name 송도고_환경데이터.csv but canonically equivalent to it satisfies
`normalize_compare`, and the resolver finds a file in any candidate list
containing such a file. -/
theorem C5_nfc_matching (files : List FSNode) (f : FSNode)
    (hmem : f ∈ files) (hne : fname f ≠ envTarget songdo)
    (heq : nfc (fname f) = nfc (envTarget songdo)) :
    normalize_compare (envTarget songdo) (fname f) = true ∧
    (findFile files (envTarget songdo)).isSome = true := by
  have hnc : normalize_compare (envTarget songdo) (fname f) = true := by
    simp [normalize_compare, heq]
  refine ⟨hnc, ?_⟩
  unfold findFile
  exact List.find?_isSome.2 ⟨f, hmem, hnc⟩

/-- C5 witness: the decomposed-jamo spelling of 송도고_환경데이터.csv is
byte-wise different from the composed logical name but matches it. -/
theorem C5_nfc_matching_witness :
    normalize_compare (envTarget songdo)
      (fname (FSNode.csvFile songdoEnvDecomp [])) = true ∧
    (findFile [FSNode.csvFile songdoEnvDecomp []]
      (envTarget songdo)).isSome = true :=
  C5_nfc_matching [FSNode.csvFile songdoEnvDecomp []]
    (FSNode.csvFile songdoEnvDecomp [])
    (List.mem_cons_self _ _) (by decide) (by decide)

/-! ### Claim C9 -/

/-- C9: the load is deterministic and idempotent over its file inputs —
with the `@st.cache_data` single-slot cache modelled explicitly, a first
and a second call against the same unchanged working directory both
return exactly `load_all_data` of that directory, hence identical
datasets (the same per-school tables, row counts and means). -/
theorem C9_idempotent (cwd : List FSNode) :
    (cachedLoad none cwd).1 = load_all_data cwd ∧
    (cachedLoad (cachedLoad none cwd).2 cwd).1 = load_all_data cwd ∧
    (cachedLoad (cachedLoad none cwd).2 cwd).1 = (cachedLoad none cwd).1 :=
  ⟨rfl, rfl, rfl⟩

/-! ### Claim C3 -/

/-- C3 counterexample: with all four environment CSVs present and the
workbook absent, the load still returns all four environment tables, but
the gate at `src/main.py:83` then evaluates false, so the environment
sections do not render either — the missing workbook is not fatal "only"
to the growth and overview features. -/
theorem C3_counterexample :
    load_all_data [FSNode.dirNode dataName cexFiles3] = LoadOutcome.ok resC3 ∧
    resC3.envDfs.isEmpty = false ∧
    resC3.growthDfs = [] ∧
    resC3.growthError = true ∧
    dashboardShown (load_all_data [FSNode.dirNode dataName cexFiles3]) = false ∧
    ¬ claimC3 := by
  refine ⟨by decide, by decide, by decide, by decide, by decide, fun h => ?_⟩
  have hres := h cexFiles3 (by decide) ⟨resC3, by decide, by decide⟩
  rw [show dashboardShown (load_all_data [FSNode.dirNode dataName cexFiles3])
      = false from by decide] at hres
  exact Bool.false_ne_true hres

/-- C3 (amended): a missing workbook is reported and leaves the growth
dict empty, while environment loading itself still proceeds — every
school whose CSV resolves gets its table — but the whole dashboard gate
then evaluates false, so all sections are disabled, the environment
aggregates included. -/
theorem C3_missing_workbook (files : List FSNode)
    (hcsv : ∀ f ∈ files, ∃ n rows, f = FSNode.csvFile n rows)
    (hnw : ∀ f ∈ files, normalize_compare growthFilename (fname f) = false) :
    ∃ r, load_all_data [FSNode.dirNode dataName files] = LoadOutcome.ok r ∧
      r.growthDfs = [] ∧ r.growthError = true ∧
      (∀ si ∈ SCHOOL_INFO, (findFile files (envTarget si.1)).isSome = true →
        si.1 ∈ dkeys r.envDfs) ∧
      dashboardShown (load_all_data [FSNode.dirNode dataName files]) = false := by
  obtain ⟨dfs, warns, hE, hmem⟩ := loadEnvList_all_csv files hcsv SCHOOL_INFO
  have hfind : findFile files growthFilename = none :=
    List.find?_eq_none.2 (fun f hf => by simp [hnw f hf])
  have hG : loadGrowth files = Except.ok ([], true) := by
    simp [loadGrowth, hfind]
  have hload : load_all_data [FSNode.dirNode dataName files] =
      LoadOutcome.ok ⟨dfs, [], warns, true⟩ := by
    rw [load_all_data_dir]
    rw [show loadEnv files = Except.ok (dfs, warns) from hE, hG]
  refine ⟨⟨dfs, [], warns, true⟩, hload, rfl, rfl, hmem, ?_⟩
  rw [hload]
  simp [dashboardShown]

/-- C3 witness: the amended statement at the concrete directory with four
CSVs and no workbook. -/
theorem C3_missing_workbook_witness :
    ∃ r, load_all_data [FSNode.dirNode dataName cexFiles3] = LoadOutcome.ok r ∧
      r.growthDfs = [] ∧ r.growthError = true ∧
      (∀ si ∈ SCHOOL_INFO, (findFile cexFiles3 (envTarget si.1)).isSome = true →
        si.1 ∈ dkeys r.envDfs) ∧
      dashboardShown (load_all_data [FSNode.dirNode dataName cexFiles3]) = false :=
  C3_missing_workbook cexFiles3
    (by
      intro f hf
      simp only [cexFiles3, List.mem_cons, List.not_mem_nil, or_false] at hf
      rcases hf with rfl | rfl | rfl | rfl <;> exact ⟨_, _, rfl⟩)
    (by decide)

/-! ### Claim C6 -/

/-- C6: if exactly one school's environment CSV is missing while the other
three resolve to CSV files and the workbook resolves, the load returns
without an uncaught error, the warning list names exactly the missing
school, and the environment aggregate table lists exactly the three
present schools. -/
theorem C6_missing_one_school (files : List FSNode) (m : U) (ecm : ℚ)
    (hm : (m, ecm) ∈ SCHOOL_INFO)
    (hpres : ∀ si ∈ SCHOOL_INFO, si.1 ≠ m →
      ∃ n rows, findFile files (envTarget si.1) = some (FSNode.csvFile n rows))
    (hmiss : findFile files (envTarget m) = none)
    (hwb : ∃ n sheets, findFile files growthFilename =
      some (FSNode.xlsxFile n sheets)) :
    ∃ r, load_all_data [FSNode.dirNode dataName files] = LoadOutcome.ok r ∧
      r.warnings = [m] ∧
      (env_summary r.envDfs).map SummaryRow.school =
        schoolNames.filter (fun s => !(s == m)) := by
  obtain ⟨nw, sheets, hw⟩ := hwb
  have hG : loadGrowth files = Except.ok (procSheets sheets, false) := by
    simp [loadGrowth, hw]
  simp only [SCHOOL_INFO, List.mem_cons, List.not_mem_nil, or_false,
    Prod.mk.injEq] at hm
  rcases hm with ⟨rfl, rfl⟩ | ⟨rfl, rfl⟩ | ⟨rfl, rfl⟩ | ⟨rfl, rfl⟩
  · obtain ⟨n2, r2, h2⟩ := hpres (haneul, 2) (by simp [SCHOOL_INFO]) (by decide)
    obtain ⟨n3, r3, h3⟩ := hpres (ara, 4) (by simp [SCHOOL_INFO]) (by decide)
    obtain ⟨n4, r4, h4⟩ := hpres (dongsan, 8) (by simp [SCHOOL_INFO]) (by decide)
    have hE : loadEnv files = Except.ok
        ([(haneul, r2.map (fun r => ⟨r, haneul⟩)),
          (ara, r3.map (fun r => ⟨r, ara⟩)),
          (dongsan, r4.map (fun r => ⟨r, dongsan⟩))], [songdo]) := by
      simp [loadEnv, SCHOOL_INFO, loadEnvList, hmiss, h2, h3, h4, Except.map]
    refine ⟨⟨[(haneul, r2.map (fun r => ⟨r, haneul⟩)),
              (ara, r3.map (fun r => ⟨r, ara⟩)),
              (dongsan, r4.map (fun r => ⟨r, dongsan⟩))],
             procSheets sheets, [songdo], false⟩, ?_, rfl, ?_⟩
    · rw [load_all_data_dir, hE, hG]
    · rw [show schoolNames.filter (fun s => !(s == songdo)) =
        [haneul, ara, dongsan] from by decide]
      simp [env_summary]
  · obtain ⟨n1, r1, h1⟩ := hpres (songdo, 1) (by simp [SCHOOL_INFO]) (by decide)
    obtain ⟨n3, r3, h3⟩ := hpres (ara, 4) (by simp [SCHOOL_INFO]) (by decide)
    obtain ⟨n4, r4, h4⟩ := hpres (dongsan, 8) (by simp [SCHOOL_INFO]) (by decide)
    have hE : loadEnv files = Except.ok
        ([(songdo, r1.map (fun r => ⟨r, songdo⟩)),
          (ara, r3.map (fun r => ⟨r, ara⟩)),
          (dongsan, r4.map (fun r => ⟨r, dongsan⟩))], [haneul]) := by
      simp [loadEnv, SCHOOL_INFO, loadEnvList, hmiss, h1, h3, h4, Except.map]
    refine ⟨⟨[(songdo, r1.map (fun r => ⟨r, songdo⟩)),
              (ara, r3.map (fun r => ⟨r, ara⟩)),
              (dongsan, r4.map (fun r => ⟨r, dongsan⟩))],
             procSheets sheets, [haneul], false⟩, ?_, rfl, ?_⟩
    · rw [load_all_data_dir, hE, hG]
    · rw [show schoolNames.filter (fun s => !(s == haneul)) =
        [songdo, ara, dongsan] from by decide]
      simp [env_summary]
  · obtain ⟨n1, r1, h1⟩ := hpres (songdo, 1) (by simp [SCHOOL_INFO]) (by decide)
    obtain ⟨n2, r2, h2⟩ := hpres (haneul, 2) (by simp [SCHOOL_INFO]) (by decide)
    obtain ⟨n4, r4, h4⟩ := hpres (dongsan, 8) (by simp [SCHOOL_INFO]) (by decide)
    have hE : loadEnv files = Except.ok
        ([(songdo, r1.map (fun r => ⟨r, songdo⟩)),
          (haneul, r2.map (fun r => ⟨r, haneul⟩)),
          (dongsan, r4.map (fun r => ⟨r, dongsan⟩))], [ara]) := by
      simp [loadEnv, SCHOOL_INFO, loadEnvList, hmiss, h1, h2, h4, Except.map]
    refine ⟨⟨[(songdo, r1.map (fun r => ⟨r, songdo⟩)),
              (haneul, r2.map (fun r => ⟨r, haneul⟩)),
              (dongsan, r4.map (fun r => ⟨r, dongsan⟩))],
             procSheets sheets, [ara], false⟩, ?_, rfl, ?_⟩
    · rw [load_all_data_dir, hE, hG]
    · rw [show schoolNames.filter (fun s => !(s == ara)) =
        [songdo, haneul, dongsan] from by decide]
      simp [env_summary]
  · obtain ⟨n1, r1, h1⟩ := hpres (songdo, 1) (by simp [SCHOOL_INFO]) (by decide)
    obtain ⟨n2, r2, h2⟩ := hpres (haneul, 2) (by simp [SCHOOL_INFO]) (by decide)
    obtain ⟨n3, r3, h3⟩ := hpres (ara, 4) (by simp [SCHOOL_INFO]) (by decide)
    have hE : loadEnv files = Except.ok
        ([(songdo, r1.map (fun r => ⟨r, songdo⟩)),
          (haneul, r2.map (fun r => ⟨r, haneul⟩)),
          (ara, r3.map (fun r => ⟨r, ara⟩))], [dongsan]) := by
      simp [loadEnv, SCHOOL_INFO, loadEnvList, hmiss, h1, h2, h3, Except.map]
    refine ⟨⟨[(songdo, r1.map (fun r => ⟨r, songdo⟩)),
              (haneul, r2.map (fun r => ⟨r, haneul⟩)),
              (ara, r3.map (fun r => ⟨r, ara⟩))],
             procSheets sheets, [dongsan], false⟩, ?_, rfl, ?_⟩
    · rw [load_all_data_dir, hE, hG]
    · rw [show schoolNames.filter (fun s => !(s == dongsan)) =
        [songdo, haneul, ara] from by decide]
      simp [env_summary]

/-- C6 witness: the concrete directory with 동산고's CSV deleted. -/
theorem C6_missing_one_school_witness :
    ∃ r, load_all_data [FSNode.dirNode dataName filesNoDongsan] =
        LoadOutcome.ok r ∧
      r.warnings = [dongsan] ∧
      (env_summary r.envDfs).map SummaryRow.school =
        schoolNames.filter (fun s => !(s == dongsan)) :=
  C6_missing_one_school filesNoDongsan dongsan 8
    (by simp [SCHOOL_INFO])
    (by
      intro si hsi hne
      simp only [SCHOOL_INFO, List.mem_cons, List.not_mem_nil, or_false] at hsi
      rcases hsi with rfl | rfl | rfl | rfl
      · exact ⟨envTarget songdo, [er0], rfl⟩
      · exact ⟨envTarget haneul, [er0], rfl⟩
      · exact ⟨envTarget ara, [er0], rfl⟩
      · exact absurd rfl hne)
    rfl
    ⟨growthFilename, goodSheets, rfl⟩

/-! ### Sheet-processing invariants -/

/-- Row-tag invariant: folding sheets preserves "every stored row carries
its dict key as school tag and that school's configured target". -/
theorem procSheets_row_tags : ∀ (sheets : List Sheet)
    (d : List (U × List GrowthRow)),
    (∀ p ∈ d, ∀ row ∈ p.2,
      GrowthRow.school row = p.1 ∧ GrowthRow.ecTarget row = ecTargetOf p.1) →
    ∀ p ∈ sheets.foldl procSheet d, ∀ row ∈ p.2,
      GrowthRow.school row = p.1 ∧ GrowthRow.ecTarget row = ecTargetOf p.1
  | [], d, hd => by simpa using hd
  | sh :: rest, d, hd => by
    rw [List.foldl_cons]
    apply procSheets_row_tags rest
    intro p hp row hrow
    rcases hm : matchSchool sh.sname with _ | si
    · simp only [procSheet, hm] at hp
      exact hd p hp row hrow
    · rcases si with ⟨s, ec⟩
      simp only [procSheet, hm] at hp
      rcases mem_dinsert hp with rfl | hp
      · rcases List.mem_map.1 hrow with ⟨w, _, rfl⟩
        exact ⟨rfl, (ecTargetOf_mem (List.mem_of_find?_eq_some hm)).symm⟩
      · exact hd p hp row hrow

/-- Key-uniqueness invariant of the sheet fold. -/
theorem procSheets_nodup_keys : ∀ (sheets : List Sheet)
    (d : List (U × List GrowthRow)),
    (dkeys d).Nodup → (dkeys (sheets.foldl procSheet d)).Nodup
  | [], _, hd => hd
  | sh :: rest, d, hd => by
    rw [List.foldl_cons]
    apply procSheets_nodup_keys rest
    rcases hm : matchSchool sh.sname with _ | si
    · simpa [procSheet, hm] using hd
    · rcases si with ⟨s, ec⟩
      simp only [procSheet, hm]
      exact nodup_dkeys_dinsert hd

/-- Total-row-count of the sheet fold, when no school is matched twice
among the remaining sheets or already present in the accumulator. -/
theorem procSheets_total_aux : ∀ (sheets : List Sheet)
    (d : List (U × List GrowthRow)),
    (dkeys d ++ matchedSchools sheets).Nodup →
    totalLen (sheets.foldl procSheet d) = totalLen d + matchedRowSum sheets
  | [], d, _ => by simp [matchedRowSum, matchedSchools, totalLen]
  | sh :: rest, d, hnd => by
    rw [List.foldl_cons]
    rcases hm : matchSchool sh.sname with _ | si
    · have h1 : matchedSchools (sh :: rest) = matchedSchools rest := by
        simp [matchedSchools, List.filterMap_cons, hm]
      have h2 : matchedRowSum (sh :: rest) = matchedRowSum rest := by
        simp [matchedRowSum, List.filter_cons, hm]
      rw [h2]
      have hrec := procSheets_total_aux rest d (by rwa [h1] at hnd)
      simpa [procSheet, hm] using hrec
    · rcases si with ⟨s, ec⟩
      have h1 : matchedSchools (sh :: rest) = s :: matchedSchools rest := by
        simp [matchedSchools, List.filterMap_cons, hm]
      have h2 : matchedRowSum (sh :: rest) = sh.rows.length + matchedRowSum rest := by
        simp [matchedRowSum, List.filter_cons, hm]
      rw [h1] at hnd
      have hnd2 : (s :: (dkeys d ++ matchedSchools rest)).Nodup :=
        hnd.perm List.perm_middle
      rcases List.nodup_cons.1 hnd2 with ⟨hs, _⟩
      have hsd : s ∉ dkeys d := fun h => hs (List.mem_append.2 (Or.inl h))
      simp only [procSheet, hm]
      rw [dinsert_of_not_mem hsd]
      have hnd4 : (dkeys (d ++ [(s, tagRows sh s ec)]) ++ matchedSchools rest).Nodup := by
        rw [show dkeys (d ++ [(s, tagRows sh s ec)]) = dkeys d ++ [s] from by
          simp [dkeys]]
        rw [List.append_assoc]
        exact hnd
      rw [procSheets_total_aux rest (d ++ [(s, tagRows sh s ec)]) hnd4, h2]
      rw [show totalLen (d ++ [(s, tagRows sh s ec)]) =
        totalLen d + sh.rows.length from by simp [totalLen, tagRows]]
      omega

/-! ### Claim C7 -/

/-- C7: a sheet is assigned to a school exactly when some configured
school identifier is a substring of the NFC-normalized sheet name; an
unmatched sheet is skipped, contributing nothing; a matched sheet's table
is stored under the matched school after tagging every row with that
school's identifier and its configured target concentration — and every
row of every stored table carries its school's tags. -/
theorem C7_sheet_assignment :
    (∀ n : U, (matchSchool n).isSome = true ↔
      ∃ si ∈ SCHOOL_INFO, infixB si.1 (nfc n) = true) ∧
    (∀ (d : List (U × List GrowthRow)) (sh : Sheet),
      matchSchool sh.sname = none → procSheet d sh = d) ∧
    (∀ (d : List (U × List GrowthRow)) (sh : Sheet) (s : U) (ec : ℚ),
      matchSchool sh.sname = some (s, ec) →
      procSheet d sh = dinsert d s (tagRows sh s ec) ∧
      ∀ row ∈ tagRows sh s ec,
        GrowthRow.school row = s ∧ GrowthRow.ecTarget row = ecTargetOf s) ∧
    (∀ (sheets : List Sheet) (s : U) (df : List GrowthRow),
      (s, df) ∈ procSheets sheets → ∀ row ∈ df,
        GrowthRow.school row = s ∧ GrowthRow.ecTarget row = ecTargetOf s) := by
  refine ⟨?_, ?_, ?_, ?_⟩
  · intro n
    unfold matchSchool
    exact List.find?_isSome
  · intro d sh hm
    simp [procSheet, hm]
  · intro d sh s ec hm
    refine ⟨by simp [procSheet, hm], ?_⟩
    intro row hrow
    rcases List.mem_map.1 hrow with ⟨w, _, rfl⟩
    exact ⟨rfl, (ecTargetOf_mem (List.mem_of_find?_eq_some hm)).symm⟩
  · intro sheets s df hmem row hrow
    exact procSheets_row_tags sheets [] (by simp) (s, df) hmem row hrow

/-- C7 witness: concrete sheet assignments — a suffixed 송도고 sheet name
matches, a sheet named `A` is skipped, and the rows stored for 송도고 by
the workbook fold carry the 송도고 tags. -/
theorem C7_sheet_assignment_witness :
    (matchSchool (songdo ++ [0x41])).isSome = true ∧
    procSheet [] ⟨[0x41], [7]⟩ = [] ∧
    procSheet [] ⟨songdo, [10]⟩ =
      dinsert [] songdo (tagRows ⟨songdo, [10]⟩ songdo 1) ∧
    GrowthRow.school ⟨10, songdo, 1⟩ = songdo ∧
    GrowthRow.ecTarget ⟨10, songdo, 1⟩ = ecTargetOf songdo := by
  refine ⟨?_, ?_, ?_, ?_, ?_⟩
  · exact (C7_sheet_assignment.1 (songdo ++ [0x41])).2
      ⟨(songdo, 1), by simp [SCHOOL_INFO], by decide⟩
  · exact C7_sheet_assignment.2.1 [] ⟨[0x41], [7]⟩ rfl
  · exact (C7_sheet_assignment.2.2.1 [] ⟨songdo, [10]⟩ songdo 1 rfl).1
  · exact ((C7_sheet_assignment.2.2.1 [] ⟨songdo, [10]⟩ songdo 1 rfl).2
      ⟨10, songdo, 1⟩ (List.mem_cons_self _ _)).1
  · exact ((C7_sheet_assignment.2.2.1 [] ⟨songdo, [10]⟩ songdo 1 rfl).2
      ⟨10, songdo, 1⟩ (List.mem_cons_self _ _)).2

/-! ### Claim C10 -/

/-- C10: the growth dict maps each school to at most one table; when a
later workbook sheet matches the same school as an earlier one, the later
sheet's tagged table is what the dict holds for that school; and a sheet
name containing several school identifiers is assigned to the first
matching school in the configured `SCHOOL_INFO` iteration order. -/
theorem C10_sheet_overwrite :
    (∀ sheets : List Sheet, (dkeys (procSheets sheets)).Nodup) ∧
    (∀ (sheets : List Sheet) (sh : Sheet) (s : U) (ec : ℚ),
      matchSchool sh.sname = some (s, ec) →
      dlookup (procSheets (sheets ++ [sh])) s = some (tagRows sh s ec)) ∧
    (∀ (n s : U) (ec : ℚ), matchSchool n = some (s, ec) →
      (s, ec) ∈ SCHOOL_INFO ∧ infixB s (nfc n) = true ∧
      ∃ l1 l2, SCHOOL_INFO = l1 ++ (s, ec) :: l2 ∧
        ∀ si ∈ l1, infixB si.1 (nfc n) = false) := by
  refine ⟨?_, ?_, ?_⟩
  · intro sheets
    exact procSheets_nodup_keys sheets [] (by simp [dkeys])
  · intro sheets sh s ec hm
    rw [procSheets, List.foldl_append, List.foldl_cons, List.foldl_nil]
    simp only [procSheet, hm]
    exact dlookup_dinsert_self _ s _
  · intro n s ec hm
    obtain ⟨hp, l1, l2, hsplit, hl1⟩ := find?_split _ hm
    exact ⟨List.mem_of_find?_eq_some hm, hp, l1, l2, hsplit, hl1⟩

/-- C10 witness: with two sheets both matching 송도고, the dict holds the
second sheet's tagged rows; the first-school resolution at a concrete
ambiguous name 하늘고송도고 picks 송도고 (earlier in configured order). -/
theorem C10_sheet_overwrite_witness :
    (dkeys (procSheets cexSheets8)).Nodup ∧
    dlookup (procSheets cexSheets8) songdo =
      some (tagRows ⟨songdo ++ [0x42], [1, 2, 3]⟩ songdo 1) ∧
    ((songdo, (1 : ℚ)) ∈ SCHOOL_INFO ∧
      infixB songdo (nfc (haneul ++ songdo)) = true ∧
      ∃ l1 l2, SCHOOL_INFO = l1 ++ (songdo, (1 : ℚ)) :: l2 ∧
        ∀ si ∈ l1, infixB si.1 (nfc (haneul ++ songdo)) = false) := by
  refine ⟨C10_sheet_overwrite.1 cexSheets8, ?_, ?_⟩
  · exact C10_sheet_overwrite.2.1 [⟨songdo ++ [0x41], [1, 2]⟩]
      ⟨songdo ++ [0x42], [1, 2, 3]⟩ songdo 1 rfl
  · exact C10_sheet_overwrite.2.2 (haneul ++ songdo) songdo 1 rfl

/-! ### Claim C8 -/

/-- C8 counterexample: with two sheets both matching 송도고 (2 rows and
3 rows), the dict keeps only the later table, so the concatenated growth
table has 3 rows while the matched sheets hold 5. -/
theorem C8_counterexample :
    (all_growth (procSheets cexSheets8)).length = 3 ∧
    matchedRowSum cexSheets8 = 5 ∧
    ¬ claimC8 := by
  refine ⟨by decide, by decide, fun h => ?_⟩
  have hc := h cexSheets8
  rw [show (all_growth (procSheets cexSheets8)).length = 3 from by decide,
    show matchedRowSum cexSheets8 = 5 from by decide] at hc
  omega

/-- C8 (amended): when every school is matched by at most one workbook
sheet — in particular under the documented layout of one sheet per
school — the combined growth table's row count equals the sum of the row
counts over all matched sheets. In general the count equals the sum over
the retained (last) sheet of each matched school. -/
theorem C8_combined_rowcount (sheets : List Sheet)
    (h : (matchedSchools sheets).Nodup) :
    (all_growth (procSheets sheets)).length = matchedRowSum sheets := by
  rw [length_all_growth, procSheets]
  have hrec := procSheets_total_aux sheets []
    (by simpa [dkeys] using h)
  simpa [totalLen] using hrec

/-- C8 witness: the four-sheet workbook, one sheet per school. -/
theorem C8_combined_rowcount_witness :
    (all_growth (procSheets goodSheets)).length = matchedRowSum goodSheets :=
  C8_combined_rowcount goodSheets (by decide)

/-! ### Claim C4 -/

/-- C4 counterexample: 송도고 and 동산고 tie on mean fresh weight.
`groupby` sorts the school keys (동산고 < 송도고 in code-point order) and
`idxmax` takes the first occurrence of the maximum, so the code answers
동산고 while the claimed configured-order tie-break answers 송도고. -/
theorem C4_counterexample :
    best_school d0 = some dongsan ∧
    best_school_claimed d0 = some songdo ∧
    ¬ claimC4 := by
  have hbest : best_school d0 = some dongsan := by
    norm_num [best_school, d0, all_growth, avg_weight, meanOf, mean, sortU,
      dedupFirst, dedupFirstAux, insertSorted, uLt, firstMax, songdo, dongsan,
      beq_iff_eq, List.contains]
  have hclaimed : best_school_claimed d0 = some songdo := by
    norm_num [best_school_claimed, d0, all_growth, meanOf, mean, schoolNames,
      SCHOOL_INFO, firstMax, songdo, dongsan, haneul, ara, beq_iff_eq]
  refine ⟨hbest, hclaimed, fun h => ?_⟩
  have hc := h d0
  rw [hbest, hclaimed] at hc
  exact absurd (Option.some.inj hc) (by decide)

/-- C4 (amended): the best school is an argmax over the per-school means
of the schools present in the combined table, and a tie on the mean is
resolved in favor of the school earliest in sorted (lexicographic
code-point, i.e. alphabetical) order of the school names — for the four
configured names 동산고 < 송도고 < 아라고 < 하늘고 — not the configured
`SCHOOL_INFO` ordering: every school strictly earlier in that sorted
order than the winner has a strictly smaller mean. -/
theorem C4_best_school (d : List (U × List GrowthRow)) (b : U)
    (hb : best_school d = some b) :
    b ∈ (all_growth d).map GrowthRow.school ∧
    (∀ s ∈ (all_growth d).map GrowthRow.school,
      meanOf (all_growth d) s ≤ meanOf (all_growth d) b) ∧
    (∀ s ∈ (all_growth d).map GrowthRow.school,
      uLt s b = true →
        meanOf (all_growth d) s < meanOf (all_growth d) b) := by
  rcases hfm : firstMax (avg_weight (all_growth d)) with _ | p
  · rw [best_school, hfm] at hb
    simp at hb
  · rw [best_school, hfm] at hb
    simp only [Option.map_some'] at hb
    have hmemp := firstMax_mem hfm
    rw [avg_weight] at hmemp
    obtain ⟨sb, hsb, hpe⟩ := List.mem_map.1 hmemp
    have hsorted : (avg_weight (all_growth d)).Pairwise
        (fun a b2 => uLt a.1 b2.1 = true) := by
      rw [avg_weight, List.pairwise_map]
      exact sortedU_sortU (nodup_dedupFirst _)
    subst hpe
    have hbb := Option.some.inj hb
    subst hbb
    refine ⟨?_, ?_, ?_⟩
    · exact mem_dedupFirst.1 (mem_sortU.1 hsb)
    · intro s hs
      have hq : (s, meanOf (all_growth d) s) ∈ avg_weight (all_growth d) := by
        rw [avg_weight]
        exact List.mem_map_of_mem _ (mem_sortU.2 (mem_dedupFirst.2 hs))
      exact firstMax_ge hfm _ hq
    · intro s hs hlt
      have hq : (s, meanOf (all_growth d) s) ∈ avg_weight (all_growth d) := by
        rw [avg_weight]
        exact List.mem_map_of_mem _ (mem_sortU.2 (mem_dedupFirst.2 hs))
      exact firstMax_first hsorted hfm _ hq hlt

/-- C4 witness: the amended statement at the tied dict — the winner
동산고 is present and its mean is at least 송도고's. -/
theorem C4_best_school_witness :
    dongsan ∈ (all_growth d0).map GrowthRow.school ∧
    meanOf (all_growth d0) songdo ≤ meanOf (all_growth d0) dongsan := by
  have h := C4_best_school d0 dongsan (by
    norm_num [best_school, d0, all_growth, avg_weight, meanOf, mean, sortU,
      dedupFirst, dedupFirstAux, insertSorted, uLt, firstMax, songdo, dongsan,
      beq_iff_eq, List.contains])
  exact ⟨h.1, h.2.1 songdo (by decide)⟩

end NadoDash
